import Mathlib

/-
Shallow embedding of the dev-server lifecycle orchestrator of the rsbuild
repository slice: `packages/shared/src/devServer.ts` and
`packages/core/src/cli/commands.ts`.  JavaScript values relevant to the
configuration merge are modelled as a tree of objects, arrays and scalar
leaves; promises become `Except`-valued results; the observable effects of a
run (port requests, hook invocations, server creation, listening, resolution)
become an explicit event trace.  Collaborator modules that the two source
files import but whose sources are not part of the repository slice
(`constants`, `createHook`, `mergeChainedOptions`, `port`, `url`) are
modelled from the spec and marked as such in their doc comments.
-/

/- Errors carried by rejected promises / thrown exceptions. -/
abbrev Err := String

/-- Scalar JavaScript values appearing at the leaves of configuration
objects.  `fn` stands for a function-valued leaf (such as
`devMiddleware.writeToDisk`), `undef` for the value `undefined`. -/
inductive JVal where
  | str (s : String)
  | num (n : Nat)
  | bool (b : Bool)
  | fn
  | undef
deriving DecidableEq, Repr

mutual

/-- A JavaScript configuration value: a scalar leaf, an array, or a plain
object given as an ordered field list (first occurrence of a key wins on
lookup, as in a JavaScript object literal). -/
inductive JObj where
  | leaf (v : JVal)
  | arr (a : List JVal)
  | obj (fields : JFields)

/-- The ordered field list of a JavaScript object. -/
inductive JFields where
  | nil
  | cons (key : String) (value : JObj) (rest : JFields)

end

/-- Build a field list from a Lean list of key/value pairs. -/
def fieldsOf : List (String × JObj) → JFields
  | [] => .nil
  | (k, v) :: r => .cons k v (fieldsOf r)

/-- Look a key up in a field list (first occurrence wins). -/
def lookupFds : JFields → String → Option JObj
  | .nil, _ => none
  | .cons k v r, key => if k = key then some v else lookupFds r key

/-- Whether a field list carries a key. -/
def hasKey (fs : JFields) (k : String) : Bool :=
  (lookupFds fs k).isSome

/-- Whether a value is a plain object (`isMergeableObject` in `deepmerge`,
restricted to the object case). -/
def JObj.isObj : JObj → Bool
  | .obj _ => true
  | _ => false

/-- Field lookup on an arbitrary value: only objects have fields. -/
def JObj.lookupF : JObj → String → Option JObj
  | .obj fs, k => lookupFds fs k
  | _, _ => none

/-- The fields of `fx` whose keys do not occur in `fy`. -/
def dropKeysF : JFields → JFields → JFields
  | .nil, _ => .nil
  | .cons k v r, fy =>
    if hasKey fy k then dropKeysF r fy else .cons k v (dropKeysF r fy)

/-- Concatenation of field lists. -/
def appendF : JFields → JFields → JFields
  | .nil, g => g
  | .cons k v r, g => .cons k v (appendF r g)

mutual

/-- The `deepmerge` package as used by `getDevServerOptions`
(`devServer.ts` lines 56-78): two arrays concatenate, two plain objects
merge key-wise (shared keys recursively, keys of only one side kept), and
in every other case the second argument (the override) wins. -/
def deepmerge : JObj → JObj → JObj
  | .arr a, .arr b => .arr (a ++ b)
  | .obj fx, .obj fy => .obj (appendF (overrideF fx fy) (dropKeysF fx fy))
  | _, y => y

/-- The fields of the override `fy`, each merged with the corresponding
field of `fx` when one exists. -/
def overrideF : JFields → JFields → JFields
  | _, .nil => .nil
  | fx, .cons k v r =>
    .cons k
      (match lookupFds fx k with
       | some xv => deepmerge xv v
       | none => v)
      (overrideF fx r)

end

/-- Look up the scalar leaf sitting at a key path, `none` when the path is
absent or ends at a non-leaf. -/
def lookupLeaf : JObj → List String → Option JVal
  | .leaf v, [] => some v
  | _, [] => none
  | t, k :: p =>
    match t.lookupF k with
    | some u => lookupLeaf u p
    | none => none

/-- A key path is free in a value when walking it passes only through
objects and falls off at a missing key: no node of the value sits at the
path or at any prefix that would block it. -/
def freePath : JObj → List String → Bool
  | .obj fs, k :: p =>
    (match lookupFds fs k with
     | some t => freePath t p
     | none => true)
  | _, _ => false

/-- JavaScript truthiness of a configuration value. -/
def jsTruthy : JObj → Bool
  | .leaf (.str s) => !(s = "")
  | .leaf (.num n) => !(n = 0)
  | .leaf (.bool b) => b
  | .leaf .fn => true
  | .leaf .undef => false
  | .arr _ => true
  | .obj _ => true

/- ---------------------------------------------------------------------
Configuration model (`RsbuildConfig` fields consumed by the two source
files: `dev.port`, `dev.hmr`, `dev.https`, `dev.host`, `tools.devServer`).
--------------------------------------------------------------------- -/

/-- The `dev` section of an rsbuild configuration, restricted to the fields
that `devServer.ts` reads. -/
structure DevCfg where
  port : Option Nat := none
  hmr : Option Bool := none
  https : Option JObj := none
  host : Option String := none

/-- An rsbuild configuration, restricted to the fields that `devServer.ts`
reads. -/
structure RsbuildCfg where
  dev : Option DevCfg := none
  toolsDevServer : Option JObj := none

/-- Modelled from the spec: the fixed well-known default dev-server port
exported by the constants module, whose source is not in the repository
slice. -/
def DEFAULT_PORT : Nat := 8080

/-- Modelled from the spec: the loopback-equivalent default dev-server host
exported by the constants module, whose source is not in the repository
slice. -/
def DEFAULT_DEV_HOST : String := "0.0.0.0"

/-- The literal default configuration object built at `devServer.ts`
lines 56-69: `hot` and `liveReload` are `dev.hmr ?? true`, `watch` is
`true`, `client.port` is the resolved port as a string, `port` is the
resolved port, `devMiddleware.writeToDisk` is a function, and `https` is
`dev.https` (the value `undefined` when absent, as in the source object
literal). -/
def defaultDevConfig (cfg : RsbuildCfg) (port : Nat) : JObj :=
  .obj (fieldsOf [
    ("hot", .leaf (.bool ((cfg.dev.bind DevCfg.hmr).getD true))),
    ("watch", .leaf (.bool true)),
    ("client", .obj (fieldsOf [("port", .leaf (.str (toString port)))])),
    ("port", .leaf (.num port)),
    ("liveReload", .leaf (.bool ((cfg.dev.bind DevCfg.hmr).getD true))),
    ("devMiddleware", .obj (fieldsOf [("writeToDisk", .leaf .fn)])),
    ("https", (cfg.dev.bind DevCfg.https).getD (.leaf .undef))])

/-- The expression `(serverOptions.dev as ...) || {}` of `devServer.ts`
line 71: a missing or falsy `serverOptions.dev` becomes the empty object. -/
def jsOrEmptyObj : Option JObj → JObj
  | none => .obj .nil
  | some v => if jsTruthy v then v else .obj .nil

/-- Modelled from the spec: `mergeChainedOptions` (its source file is not
in the repository slice) layers the tool-level override, when present, on
top of the defaults using the supplied merge function; an absent override
leaves the defaults unchanged. -/
def mergeChainedOptions (defaults : JObj) (options : Option JObj)
    (mergeFn : JObj → JObj → JObj) : JObj :=
  match options with
  | some t => mergeFn defaults t
  | none => defaults

/-- `getDevServerOptions` (`devServer.ts` lines 45-81): deep-merge the
built-in defaults with `serverOptions.dev`, then layer `tools.devServer`
on top through `mergeChainedOptions` with `deepmerge` as merge function. -/
def getDevServerOptions (cfg : RsbuildCfg) (serverOptionsDev : Option JObj)
    (port : Nat) : JObj :=
  mergeChainedOptions
    (deepmerge (defaultDevConfig cfg port) (jsOrEmptyObj serverOptionsDev))
    cfg.toolsDevServer deepmerge

/- ---------------------------------------------------------------------
Compiler-event bridge (`setupServerHooks`, `devServer.ts` lines 201-221).
Callbacks are identified by opaque numeric ids; a registration point is
the ordered list of `(pluginName, callback)` taps it has accepted.
--------------------------------------------------------------------- -/

/-- The callback pair handed to `setupServerHooks`. -/
structure ServerCallbacks where
  onInvalid : Nat
  onDone : Nat

/-- The three registration points exposed by a compiler-like object. -/
structure CompilerHooks where
  compile : List (String × Nat)
  invalid : List (String × Nat)
  done : List (String × Nat)
deriving DecidableEq, Repr

/-- A compiler-like object: an optional name and its hook registration
points. -/
structure CompilerModel where
  name : Option String
  hooks : CompilerHooks
deriving DecidableEq, Repr

/-- `tap(name, cb)` on a registration point appends the registration. -/
def tapF (taps : List (String × Nat)) (pluginName : String) (cb : Nat) :
    List (String × Nat) :=
  taps ++ [(pluginName, cb)]

/-- `setupServerHooks` (`devServer.ts` lines 201-221): a compiler named
`server` is left untouched; any other compiler gets `onInvalid` tapped on
`compile` and `invalid` and `onDone` tapped on `done`, all under the
plugin name `modern-dev-server`. -/
def setupServerHooks (c : CompilerModel) (cbs : ServerCallbacks) :
    CompilerModel :=
  if c.name = some "server" then c
  else
    { c with
      hooks :=
        { compile := tapF c.hooks.compile "modern-dev-server" cbs.onInvalid,
          invalid := tapF c.hooks.invalid "modern-dev-server" cbs.onInvalid,
          done := tapF c.hooks.done "modern-dev-server" cbs.onDone } }

/- ---------------------------------------------------------------------
CLI `init` (`packages/core/src/cli/commands.ts` lines 34-106).  The
collaborators `loadEnv`, `loadConfig` and `createRsbuild` are imports whose
behaviour on one run is injected as an `InitWorld`; the module-level
`commonOpts` slot is passed and returned explicitly.
--------------------------------------------------------------------- -/

/-- The CLI options stored in the module-level `commonOpts` slot. -/
structure CommonOptions where
  config : Option String := none
  envMode : Option String := none
  openUrl : Option String := none
  host : Option String := none
  port : Option Nat := none

/-- The behaviour of `init`'s collaborators during one run: each of
`loadEnv`, `loadConfig` and the dynamically imported `createRsbuild` either
returns or throws, and `process.argv[2]` names the CLI command. -/
structure InitWorld where
  loadEnvResult : Except Err (List String)
  loadConfigResult : Except Err (Option String)
  createRsbuildResult : Except Err Nat
  argv2 : Option String

/-- Observable side effects of one `init` run. -/
inductive InitEv where
  | watchFilesEv (files : List String)
  | logError (e : Err)
deriving DecidableEq, Repr

/-- The value produced by one `init` run: the new `commonOpts` slot, the
emitted side effects, and the outcome (`Except.ok none` models returning
`undefined`). -/
structure InitRes where
  commonOpts : CommonOptions
  events : List InitEv
  result : Except Err (Option Nat)

/-- `init` (`commands.ts` lines 34-106): store `cliOptions` into the
module slot when given; run env loading, config loading (watching the env
and config files when the command is `dev`) and `createRsbuild`; any throw
is caught, and the catch logs the error and returns `undefined` when
`isRestart` is set but re-throws it otherwise. -/
def init (slot : CommonOptions) (cliOptions : Option CommonOptions)
    (isRestart : Bool) (w : InitWorld) : InitRes :=
  let commonOpts := match cliOptions with
    | some o => o
    | none => slot
  match w.loadEnvResult with
  | .error e =>
    if isRestart then ⟨commonOpts, [.logError e], .ok none⟩
    else ⟨commonOpts, [], .error e⟩
  | .ok envFiles =>
    match w.loadConfigResult with
    | .error e =>
      if isRestart then ⟨commonOpts, [.logError e], .ok none⟩
      else ⟨commonOpts, [], .error e⟩
    | .ok configFilePath =>
      let watchEvs :=
        if w.argv2 = some "dev" then
          [InitEv.watchFilesEv (envFiles ++ configFilePath.toList)]
        else []
      match w.createRsbuildResult with
      | .error e =>
        if isRestart then ⟨commonOpts, watchEvs ++ [.logError e], .ok none⟩
        else ⟨commonOpts, watchEvs, .error e⟩
      | .ok r => ⟨commonOpts, watchEvs, .ok (some r)⟩

/-- The first error thrown by the re-resolution steps of one `init` run,
in their execution order. -/
def initFirstFailure (w : InitWorld) : Option Err :=
  match w.loadEnvResult with
  | .error e => some e
  | .ok _ =>
    match w.loadConfigResult with
    | .error e => some e
    | .ok _ =>
      match w.createRsbuildResult with
      | .error e => some e
      | .ok _ => none

/- ---------------------------------------------------------------------
`startDevServer` (`devServer.ts` lines 96-194).  One run is a sequential
computation whose suspension points are the injected collaborators; the
behaviour of each collaborator during the run is a `Behavior`.  The run
produces the final environment map, an event trace, and an `Outcome` for
the promise that `startDevServer` returns.
--------------------------------------------------------------------- -/

/-- The process environment: a total map from variable names to their
optional values. -/
abbrev EnvMap := String → Option String

/-- JavaScript truthiness of an environment variable: set and non-empty. -/
def jsTruthyStr : Option String → Bool
  | none => false
  | some s => !(s = "")

/-- Lines 122-124 of `devServer.ts`: set `NODE_ENV` to `development` when
it is unset or empty, leave the environment untouched otherwise. -/
def envAfterStart (env : EnvMap) : EnvMap :=
  if jsTruthyStr (env "NODE_ENV") then env
  else fun k => if k = "NODE_ENV" then some "development" else env k

/-- The port handed to `getPort` at `devServer.ts` line 128:
`rsbuildConfig.dev?.port || DEFAULT_PORT`, with JavaScript truthiness, so
a missing `dev.port` and a `dev.port` of `0` both yield `DEFAULT_PORT`. -/
def requestedPort (cfg : RsbuildCfg) : Nat :=
  match cfg.dev.bind DevCfg.port with
  | some p => if p = 0 then DEFAULT_PORT else p
  | none => DEFAULT_PORT

/-- A `label`/`url` pair as produced by the URL resolver. -/
structure UrlEntry where
  label : String
  url : String
deriving DecidableEq, Repr

/-- Modelled from the spec: `getAddressUrls` (its source file is not in
the repository slice) produces a `Local` loopback entry first and then one
`Network` entry per non-loopback interface address; the interface
addresses observed during the run are injected as `ifaces`.  No claim
depends on the host-based filtering of the entries, so the bind-host
argument is carried but not consulted. -/
def getAddressUrls (protocol : String) (port : Nat) (_host : Option String)
    (ifaces : List String) : List UrlEntry :=
  ⟨"Local", protocol ++ "://localhost:" ++ toString port⟩ ::
    ifaces.map fun ip =>
      ⟨"Network", protocol ++ "://" ++ ip ++ ":" ++ toString port⟩

/-- The value a caller-supplied `printURLs` function returns: an array of
entries or some non-array value. -/
inductive UrlRet where
  | arrOf (us : List UrlEntry)
  | nonArr

/-- The `printURLs` option: a boolean flag or a transform function. -/
inductive PrintURLsOpt where
  | flag (b : Bool)
  | transform (f : List UrlEntry → UrlRet)

/-- The options bag of `startDevServer` restricted to the fields the claims
exercise; `serverOptionsDev` is `serverOptions.dev`. -/
structure SDSOptions where
  printURLs : PrintURLsOpt := .flag true
  strictPort : Bool := false
  serverOptionsDev : Option JObj := none
  getPortSilently : Bool := false

/-- One run's behaviour of the injected collaborators of `startDevServer`:
the settlement of the `getPort` promise, the interface addresses, the
settlement of `createDevServer` (a numeric server handle on success), the
before-start hook callbacks (`none` = fulfils, `some e` = rejects), the
settlement of `server.init()`, the error argument the server passes to the
`listen` callback, and the after-start hook callbacks. -/
structure Behavior where
  portResult : Except Err Nat
  ifaces : List String := []
  createResult : Except Err Nat
  beforeCbs : List (Option Err) := []
  initResult : Except Err Unit := .ok ()
  listenErr : Option Err := none
  afterCbs : List (Option Err) := []

/-- Observable events of one `startDevServer` run, in execution order. -/
inductive Ev where
  | getPortReq (requested : Nat)
  | printUrls (urls : List UrlEntry)
  | createServer
  | beforeHookCall
  | beforeCb (i : Nat)
  | serverInit
  | listenCall (host : String) (port : Nat)
  | afterHookCall (port : Nat)
  | afterCb (i : Nat)
  | resolveEv
deriving DecidableEq, Repr

/-- The value carried by a settled `startDevServer` promise
(`StartServerResult`). -/
structure StartServerResult where
  port : Nat
  urls : List String
  server : Nat
deriving DecidableEq, Repr

/-- How the promise returned by `startDevServer` ends up: fulfilled,
rejected, or forever pending while an error escapes as an unhandled
rejection (the fate of a throw inside the `async` listen callback, since
the promise at lines 172-193 is constructed with a `resolve` function
only). -/
inductive Outcome where
  | resolved (r : StartServerResult)
  | rejected (e : Err)
  | hung (unhandled : Err)
deriving DecidableEq, Repr

/-- The full result of one `startDevServer` run. -/
structure RunRes where
  env : EnvMap
  trace : List Ev
  outcome : Outcome

/-- Modelled from the spec: the `call` of a hook built by
`createAsyncHook` (its source file is not in the repository slice) awaits
the registered callbacks strictly in registration order and a rejecting
callback aborts the remaining ones.  `mk i` is the trace event recording
that callback `i` ran; the result is the emitted events together with the
settlement of the `call` promise. -/
def runCbs (mk : Nat → Ev) : List (Option Err) → Nat → List Ev × Except Err Unit
  | [], _ => ([], .ok ())
  | cb :: rest, i =>
    match cb with
    | some e => ([mk i], .error e)
    | none =>
      let r := runCbs mk rest (i + 1)
      (mk i :: r.1, r.2)

/-- The `host` computed at `devServer.ts` lines 133-136: the `host` field
of `serverOptions.dev` when that is an object with a truthy string there,
`DEFAULT_DEV_HOST` otherwise. -/
def resolveHost (dev : Option JObj) : String :=
  match dev with
  | some o =>
    match o.lookupF "host" with
    | some (.leaf (.str h)) => if h = "" then DEFAULT_DEV_HOST else h
    | _ => DEFAULT_DEV_HOST
  | none => DEFAULT_DEV_HOST

/-- The `https` flag computed at `devServer.ts` lines 138-141: the
truthiness of the `https` field of `serverOptions.dev` when that is an
object, `false` otherwise. -/
def resolveHttps (dev : Option JObj) : Bool :=
  match dev with
  | some o =>
    match o.lookupF "https" with
    | some v => jsTruthy v
    | none => false
  | none => false

/-- The protocol string of the run (`devServer.ts` line 150). -/
def protocolOf (opts : SDSOptions) : String :=
  if resolveHttps opts.serverOptionsDev then "https" else "http"

/-- Lines 153-163 of `devServer.ts`: a falsy `printURLs` keeps the
computed list and prints nothing; `true` prints the computed list; a
function replaces the list with its return value, throwing when that is
not an array, and prints the replacement.  Returns the final URL list and
whether `printServerURLs` is called. -/
def applyPrintURLs (opt : PrintURLsOpt) (us : List UrlEntry) :
    Except Err (List UrlEntry × Bool) :=
  match opt with
  | .flag b => .ok (us, b)
  | .transform f =>
    match f us with
    | .arrOf vs => .ok (vs, true)
    | .nonArr => .error "Please return an array in the `printURLs` function."

/-- The URL list of the run: the computed addresses pushed through the
`printURLs` handling. -/
def runUrls (cfg : RsbuildCfg) (opts : SDSOptions) (b : Behavior)
    (port : Nat) : Except Err (List UrlEntry × Bool) :=
  applyPrintURLs opts.printURLs
    (getAddressUrls (protocolOf opts) port (cfg.dev.bind DevCfg.host) b.ifaces)

/-- The `async` callback handed to `server.listen` (`devServer.ts` lines
178-191): an error argument is re-thrown inside the callback, which leaves
the outer promise pending forever with the error as an unhandled
rejection; otherwise the after-start hook is called with `{port}` and then
`resolve` is called with the start result.  A rejecting after-start hook
likewise leaves the promise pending.  Returns the events of the callback
and the outcome of the outer promise. -/
def listenCallback (b : Behavior) (port sid : Nat) (urls : List UrlEntry) :
    List Ev × Outcome :=
  match b.listenErr with
  | some e => ([], .hung e)
  | none =>
    let a := runCbs Ev.afterCb b.afterCbs 0
    match a.2 with
    | .error e => (Ev.afterHookCall port :: a.1, .hung e)
    | .ok _ =>
      (Ev.afterHookCall port :: (a.1 ++ [Ev.resolveEv]),
       .resolved ⟨port, urls.map UrlEntry.url, sid⟩)

/-- The part of the run after the port promise fulfilled with `port`:
compute host/https/urls, handle `printURLs`, await `createDevServer`, call
the before-start hook, await `server.init()`, call `server.listen` and run
its callback (`devServer.ts` lines 133-193).  Returns the events after the
port request and the outcome. -/
def portBoundPhase (cfg : RsbuildCfg) (opts : SDSOptions) (b : Behavior)
    (port : Nat) : List Ev × Outcome :=
  match runUrls cfg opts b port with
  | .error e => ([], .rejected e)
  | .ok (urls, doPrint) =>
    let pevs := if doPrint then [Ev.printUrls urls] else []
    match b.createResult with
    | .error e => (pevs ++ [Ev.createServer], .rejected e)
    | .ok sid =>
      let bres := runCbs Ev.beforeCb b.beforeCbs 0
      match bres.2 with
      | .error e =>
        (pevs ++ Ev.createServer :: Ev.beforeHookCall :: bres.1, .rejected e)
      | .ok _ =>
        match b.initResult with
        | .error e =>
          (pevs ++ Ev.createServer :: Ev.beforeHookCall ::
            (bres.1 ++ [Ev.serverInit]), .rejected e)
        | .ok _ =>
          let host := resolveHost opts.serverOptionsDev
          let c := listenCallback b port sid urls
          (pevs ++ Ev.createServer :: Ev.beforeHookCall ::
            (bres.1 ++ Ev.serverInit :: Ev.listenCall host port :: c.1), c.2)

/-- `startDevServer` (`devServer.ts` lines 96-194): set `NODE_ENV` when
unset, request a port with `dev.port || DEFAULT_PORT`, and continue with
the port-bound phase when the port promise fulfils; a rejected port
promise rejects the run. -/
def startDevServer (env : EnvMap) (cfg : RsbuildCfg) (opts : SDSOptions)
    (b : Behavior) : RunRes :=
  let env1 := envAfterStart env
  let req := requestedPort cfg
  match b.portResult with
  | .error e => ⟨env1, [Ev.getPortReq req], .rejected e⟩
  | .ok port =>
    let rest := portBoundPhase cfg opts b port
    ⟨env1, Ev.getPortReq req :: rest.1, rest.2⟩

/-- Whether an event is an after-start hook invocation. -/
def isAfterCall : Ev → Bool
  | .afterHookCall _ => true
  | _ => false

/-- Whether an event is a before-start hook callback run. -/
def isBeforeCb : Ev → Bool
  | .beforeCb _ => true
  | _ => false

/-- Whether an event is an after-start hook callback run. -/
def isAfterCb : Ev → Bool
  | .afterCb _ => true
  | _ => false

/-- Whether an event is a port request. -/
def isGetPortReq : Ev → Bool
  | .getPortReq _ => true
  | _ => false

/- ---------------------------------------------------------------------
Concrete fixtures used by witnesses and counterexamples.
--------------------------------------------------------------------- -/

/-- An empty process environment. -/
def envA : EnvMap := fun _ => none

/-- An environment with one unrelated variable set. -/
def envB : EnvMap := fun k => if k = "PATH" then some "/bin" else none

/-- An empty rsbuild configuration. -/
def cfgA : RsbuildCfg := {}

/-- A configuration with `dev.port` set to `0`. -/
def cfgPortZero : RsbuildCfg := { dev := some { port := some 0 } }

/-- A configuration whose `tools.devServer` carries a scalar leaf at the
key `client`, where the built-in defaults carry an object. -/
def cfgClientLeaf : RsbuildCfg :=
  { toolsDevServer := some (.obj (.cons "client" (.leaf (.num 5)) .nil)) }

/-- A configuration with `dev.hmr = false` and a tool-level `port`
override. -/
def cfgW : RsbuildCfg :=
  { dev := some { hmr := some false },
    toolsDevServer := some (.obj (.cons "port" (.leaf (.num 9)) .nil)) }

/-- A `serverOptions.dev` object overriding `watch`. -/
def sdevW : Option JObj := some (.obj (.cons "watch" (.leaf (.bool false)) .nil))

/-- Default `startDevServer` options. -/
def optsA : SDSOptions := {}

/-- A behaviour in which every collaborator succeeds. -/
def behaviorSuccess : Behavior :=
  { portResult := .ok 3000, createResult := .ok 1,
    beforeCbs := [none], afterCbs := [none, none] }

/-- A behaviour whose server reports a bind error to the listen
callback. -/
def behaviorListenErr : Behavior :=
  { portResult := .ok 3000, createResult := .ok 1,
    listenErr := some "EADDRINUSE" }

/-- A behaviour whose first after-start hook callback rejects while a
second callback is still registered. -/
def behaviorAfterFail : Behavior :=
  { portResult := .ok 3000, createResult := .ok 1,
    afterCbs := [some "hook boom", none] }

/-- A behaviour whose second before-start hook callback rejects. -/
def behaviorBeforeFail : Behavior :=
  { portResult := .ok 3000, createResult := .ok 1,
    beforeCbs := [none, some "before boom"] }

/- ---------------------------------------------------------------------
Lemmas about the configuration merge.
--------------------------------------------------------------------- -/

theorem lookupFds_appendF : ∀ (a c : JFields) (k : String),
    lookupFds (appendF a c) k =
      match lookupFds a k with
      | some v => some v
      | none => lookupFds c k
  | .nil, _, _ => rfl
  | .cons k1 v1 r, c, k => by
    by_cases h : k1 = k <;> simp [appendF, lookupFds, h, lookupFds_appendF r c k]

theorem lookupFds_overrideF : ∀ (fx fy : JFields) (k : String),
    lookupFds (overrideF fx fy) k =
      (lookupFds fy k).map (fun yv =>
        match lookupFds fx k with
        | some xv => deepmerge xv yv
        | none => yv)
  | _, .nil, _ => rfl
  | fx, .cons k1 v1 r, k => by
    by_cases h : k1 = k <;>
      simp [overrideF, lookupFds, h, lookupFds_overrideF fx r k]

theorem lookupFds_dropKeysF : ∀ (fx fy : JFields) (k : String),
    lookupFds (dropKeysF fx fy) k =
      if hasKey fy k then none else lookupFds fx k
  | .nil, fy, k => by simp [dropKeysF, lookupFds]
  | .cons k1 v1 r, fy, k => by
    by_cases h : k1 = k
    · subst h
      by_cases h2 : hasKey fy k1 <;>
        simp [dropKeysF, lookupFds, h2, lookupFds_dropKeysF r fy k1]
    · by_cases h2 : hasKey fy k1 <;>
        simp [dropKeysF, lookupFds, h, h2, lookupFds_dropKeysF r fy k]

/-- Key lookup in the field list of a merge of two objects: a key of the
override yields its (recursively merged) value, any other key falls back
to the defaults. -/
theorem lookupFds_mergeF (fx fy : JFields) (k : String) :
    lookupFds (appendF (overrideF fx fy) (dropKeysF fx fy)) k =
      match lookupFds fy k with
      | some yv => some (match lookupFds fx k with
                         | some xv => deepmerge xv yv
                         | none => yv)
      | none => lookupFds fx k := by
  rw [lookupFds_appendF, lookupFds_overrideF, lookupFds_dropKeysF]
  cases h : lookupFds fy k <;> simp [hasKey, h]

/-- A leaf present in the override tier survives the merge at its path. -/
theorem lookupLeaf_deepmerge_of_right (x y : JObj) (p : List String)
    (v : JVal) (h : lookupLeaf y p = some v) :
    lookupLeaf (deepmerge x y) p = some v := by
  induction p generalizing x y with
  | nil =>
    cases y with
    | leaf w => cases x <;> simpa [deepmerge, lookupLeaf] using h
    | arr a => simp [lookupLeaf] at h
    | obj fs => simp [lookupLeaf] at h
  | cons k p ih =>
    cases y with
    | leaf w => simp [lookupLeaf, JObj.lookupF] at h
    | arr a => simp [lookupLeaf, JObj.lookupF] at h
    | obj fy =>
      simp only [lookupLeaf, JObj.lookupF] at h
      cases hf : lookupFds fy k with
      | none => simp [hf] at h
      | some t =>
        rw [hf] at h
        cases x with
        | leaf w => simpa [deepmerge, lookupLeaf, JObj.lookupF, hf] using h
        | arr a => simpa [deepmerge, lookupLeaf, JObj.lookupF, hf] using h
        | obj fx =>
          simp only [deepmerge, lookupLeaf, JObj.lookupF]
          rw [lookupFds_mergeF, hf]
          cases hx : lookupFds fx k with
          | none => simpa using h
          | some xv => simpa using ih xv t h

/-- A free path has no leaf. -/
theorem lookupLeaf_eq_none_of_freePath (y : JObj) (p : List String)
    (h : freePath y p = true) : lookupLeaf y p = none := by
  induction p generalizing y with
  | nil => cases y <;> simp [freePath] at h
  | cons k p ih =>
    cases y with
    | leaf w => simp [freePath] at h
    | arr a => simp [freePath] at h
    | obj fs =>
      simp only [freePath] at h
      simp only [lookupLeaf, JObj.lookupF]
      cases hf : lookupFds fs k with
      | none => simp
      | some t => rw [hf] at h; simpa using ih t h

/-- Merging with an override is invisible on paths free in the override. -/
theorem lookupLeaf_deepmerge_of_freePath (x y : JObj) (p : List String)
    (h : freePath y p = true) :
    lookupLeaf (deepmerge x y) p = lookupLeaf x p := by
  induction p generalizing x y with
  | nil => cases y <;> simp [freePath] at h
  | cons k p ih =>
    cases y with
    | leaf w => simp [freePath] at h
    | arr a => simp [freePath] at h
    | obj fy =>
      simp only [freePath] at h
      cases x with
      | leaf w =>
        simp only [deepmerge, lookupLeaf, JObj.lookupF]
        cases hf : lookupFds fy k with
        | none => rfl
        | some t => rw [hf] at h; simpa using lookupLeaf_eq_none_of_freePath t p h
      | arr a =>
        simp only [deepmerge, lookupLeaf, JObj.lookupF]
        cases hf : lookupFds fy k with
        | none => rfl
        | some t => rw [hf] at h; simpa using lookupLeaf_eq_none_of_freePath t p h
      | obj fx =>
        simp only [deepmerge, lookupLeaf, JObj.lookupF]
        rw [lookupFds_mergeF]
        cases hf : lookupFds fy k with
        | none => rfl
        | some t =>
          rw [hf] at h
          cases hx : lookupFds fx k with
          | none => simpa using lookupLeaf_eq_none_of_freePath t p h
          | some xv => simpa using ih xv t h

/- ---------------------------------------------------------------------
Claim C4 — precedence of `getDevServerOptions`.
--------------------------------------------------------------------- -/

/-- C4 (amended): `getDevServerOptions` obeys the three-tier precedence
defaults < `serverOptions.dev` < `tools.devServer` at every leaf key whose
path is not blocked by a non-object value at a strict prefix in a higher
tier: a leaf of `tools.devServer` always wins; on paths free in
`tools.devServer` a leaf of `serverOptions.dev` wins; on paths free in
both override tiers the resolved value is the built-in default, and the
built-in defaults carry `hot` and `liveReload` equal to `dev.hmr` when
defined and `true` otherwise, `watch` equal to `true`, and `port` equal to
the resolved port. -/
theorem getDevServerOptions_precedence (cfg : RsbuildCfg)
    (sdev : Option JObj) (port : Nat) (T : JObj)
    (hT : cfg.toolsDevServer = some T) :
    (∀ p v, lookupLeaf T p = some v →
      lookupLeaf (getDevServerOptions cfg sdev port) p = some v) ∧
    (∀ p v, freePath T p = true →
      lookupLeaf (jsOrEmptyObj sdev) p = some v →
      lookupLeaf (getDevServerOptions cfg sdev port) p = some v) ∧
    (∀ p, freePath T p = true → freePath (jsOrEmptyObj sdev) p = true →
      lookupLeaf (getDevServerOptions cfg sdev port) p =
        lookupLeaf (defaultDevConfig cfg port) p) ∧
    lookupLeaf (defaultDevConfig cfg port) ["hot"]
        = some (.bool ((cfg.dev.bind DevCfg.hmr).getD true)) ∧
    lookupLeaf (defaultDevConfig cfg port) ["liveReload"]
        = some (.bool ((cfg.dev.bind DevCfg.hmr).getD true)) ∧
    lookupLeaf (defaultDevConfig cfg port) ["watch"] = some (.bool true) ∧
    lookupLeaf (defaultDevConfig cfg port) ["port"] = some (.num port) := by
  have hg : getDevServerOptions cfg sdev port =
      deepmerge (deepmerge (defaultDevConfig cfg port) (jsOrEmptyObj sdev))
        T := by
    rw [getDevServerOptions, hT, mergeChainedOptions]
  refine ⟨?_, ?_, ?_, rfl, rfl, rfl, rfl⟩
  · intro p v h
    rw [hg]
    exact lookupLeaf_deepmerge_of_right _ _ _ _ h
  · intro p v hfree h
    rw [hg, lookupLeaf_deepmerge_of_freePath _ _ _ hfree]
    exact lookupLeaf_deepmerge_of_right _ _ _ _ h
  · intro p hfree hfree2
    rw [hg, lookupLeaf_deepmerge_of_freePath _ _ _ hfree,
      lookupLeaf_deepmerge_of_freePath _ _ _ hfree2]

/-- C4 witness: with `dev.hmr = false`, `serverOptions.dev = {watch: false}`
and `tools.devServer = {port: 9}`, the resolved config carries the
tool-level `port`, the server-level `watch`, and the default `hot`. -/
theorem getDevServerOptions_precedence_witness :
    lookupLeaf (getDevServerOptions cfgW sdevW 3000) ["port"]
        = some (.num 9) ∧
    lookupLeaf (getDevServerOptions cfgW sdevW 3000) ["watch"]
        = some (.bool false) ∧
    lookupLeaf (getDevServerOptions cfgW sdevW 3000) ["hot"]
        = lookupLeaf (defaultDevConfig cfgW 3000) ["hot"] := by
  have h := getDevServerOptions_precedence cfgW sdevW 3000
    (.obj (.cons "port" (.leaf (.num 9)) .nil)) rfl
  exact ⟨h.1 ["port"] _ rfl, h.2.1 ["watch"] _ rfl rfl, h.2.2.1 ["hot"] rfl rfl⟩

/-- C4 counterexample: with `tools.devServer = {client: 5}` and no
`serverOptions.dev`, the leaf key `client.port` is absent from both
override tiers, yet the resolved config does not carry the built-in
default `client.port = "3000"`: the tool-level scalar at the prefix
`client` wipes out the default subtree, so the claimed third-tier fallback
fails. -/
theorem getDevServerOptions_precedence_counterexample :
    lookupLeaf (.obj (.cons "client" (.leaf (.num 5)) .nil))
        ["client", "port"] = none ∧
    lookupLeaf (jsOrEmptyObj none) ["client", "port"] = none ∧
    lookupLeaf (defaultDevConfig cfgClientLeaf 3000) ["client", "port"]
        = some (.str "3000") ∧
    lookupLeaf (getDevServerOptions cfgClientLeaf none 3000)
        ["client", "port"] = none :=
  ⟨rfl, rfl, rfl, rfl⟩

/- ---------------------------------------------------------------------
Lemmas about hook callback runs and event traces.
--------------------------------------------------------------------- -/

/-- A hook whose callbacks all fulfil runs every callback in registration
order and its `call` fulfils. -/
theorem runCbs_replicate (mk : Nat → Ev) :
    ∀ (m i : Nat), runCbs mk (List.replicate m none) i =
      ((List.range' i m).map mk, .ok ())
  | 0, _ => rfl
  | m + 1, i => by
    simp [List.replicate_succ, runCbs, runCbs_replicate mk m (i + 1),
      List.range'_succ]

/-- A hook whose callback `i` rejects runs exactly the callbacks up to and
including `i` and its `call` rejects with that callback's error. -/
theorem runCbs_fail (mk : Nat → Ev) (e : Err) (rest : List (Option Err)) :
    ∀ (i k : Nat),
      runCbs mk (List.replicate i none ++ some e :: rest) k =
        ((List.range' k (i + 1)).map mk, .error e)
  | 0, k => by simp [runCbs]
  | i + 1, k => by
    simp [List.replicate_succ, runCbs, runCbs_fail mk e rest i (k + 1),
      List.range'_succ]

theorem countP_map_eq_zero {α : Type} (p : Ev → Bool) (f : α → Ev)
    (h : ∀ a, p (f a) = false) (l : List α) : (l.map f).countP p = 0 := by
  induction l with
  | nil => rfl
  | cons a t ih => simp [List.countP_cons, h, ih]

theorem countP_map_eq_length {α : Type} (p : Ev → Bool) (f : α → Ev)
    (h : ∀ a, p (f a) = true) (l : List α) :
    (l.map f).countP p = l.length := by
  induction l with
  | nil => rfl
  | cons a t ih => simp [List.countP_cons, h, ih]

/-- The full trace and outcome of a run in which every collaborator
succeeds. -/
theorem startDevServer_success_run (env : EnvMap) (cfg : RsbuildCfg)
    (opts : SDSOptions) (b : Behavior) (port sid : Nat)
    (urls : List UrlEntry) (doPrint : Bool) (m n : Nat)
    (hp : b.portResult = .ok port)
    (hu : runUrls cfg opts b port = .ok (urls, doPrint))
    (hc : b.createResult = .ok sid)
    (hb : b.beforeCbs = List.replicate m none)
    (hi : b.initResult = .ok ())
    (hl : b.listenErr = none)
    (ha : b.afterCbs = List.replicate n none) :
    (startDevServer env cfg opts b).trace =
      Ev.getPortReq (requestedPort cfg) ::
        ((if doPrint then [Ev.printUrls urls] else []) ++
          Ev.createServer :: Ev.beforeHookCall ::
            ((List.range' 0 m).map Ev.beforeCb ++
              Ev.serverInit ::
                Ev.listenCall (resolveHost opts.serverOptionsDev) port ::
                  Ev.afterHookCall port ::
                    ((List.range' 0 n).map Ev.afterCb ++ [Ev.resolveEv]))) ∧
    (startDevServer env cfg opts b).outcome =
      .resolved ⟨port, urls.map UrlEntry.url, sid⟩ := by
  simp only [startDevServer, portBoundPhase, listenCallback, hp, hu, hc, hb,
    hi, hl, ha, runCbs_replicate]
  exact ⟨trivial, trivial⟩

/- ---------------------------------------------------------------------
Claim C8 — the compiler-event bridge.
--------------------------------------------------------------------- -/

/-- C8: `setupServerHooks` registers nothing on a compiler named `server`;
on any other compiler it makes exactly three registrations — `onInvalid`
on `compile`, `onInvalid` on `invalid`, `onDone` on `done`, each under the
plugin name `modern-dev-server` — and changes nothing else. -/
theorem setupServerHooks_registrations (c : CompilerModel)
    (cbs : ServerCallbacks) :
    (c.name = some "server" → setupServerHooks c cbs = c) ∧
    (c.name ≠ some "server" →
      (setupServerHooks c cbs).hooks.compile
          = c.hooks.compile ++ [("modern-dev-server", cbs.onInvalid)] ∧
      (setupServerHooks c cbs).hooks.invalid
          = c.hooks.invalid ++ [("modern-dev-server", cbs.onInvalid)] ∧
      (setupServerHooks c cbs).hooks.done
          = c.hooks.done ++ [("modern-dev-server", cbs.onDone)] ∧
      (setupServerHooks c cbs).name = c.name) := by
  constructor
  · intro h; simp [setupServerHooks, h]
  · intro h; simp [setupServerHooks, h, tapF]

/-- C8 witness: a compiler named `server` is untouched; a compiler named
`client` with empty registration points ends with exactly one
registration at each point. -/
theorem setupServerHooks_registrations_witness :
    setupServerHooks ⟨some "server", ⟨[], [], []⟩⟩ ⟨1, 2⟩
        = ⟨some "server", ⟨[], [], []⟩⟩ ∧
    (setupServerHooks ⟨some "client", ⟨[], [], []⟩⟩ ⟨1, 2⟩).hooks.compile
        = [("modern-dev-server", 1)] ∧
    (setupServerHooks ⟨some "client", ⟨[], [], []⟩⟩ ⟨1, 2⟩).hooks.done
        = [("modern-dev-server", 2)] := by
  have h1 := (setupServerHooks_registrations
    ⟨some "server", ⟨[], [], []⟩⟩ ⟨1, 2⟩).1 rfl
  have h2 := (setupServerHooks_registrations
    ⟨some "client", ⟨[], [], []⟩⟩ ⟨1, 2⟩).2 (by decide)
  exact ⟨h1, by simpa using h2.1, by simpa using h2.2.2.1⟩

/- ---------------------------------------------------------------------
Claim C9 — `init` and restart-triggered failures.
--------------------------------------------------------------------- -/

/-- C9: when a re-resolution step of `init` throws, a run with `isRestart`
set passes the error to the logger and returns `undefined` instead of
re-throwing, so a restart-triggered failure never rejects out of `init`;
a run without `isRestart` re-throws the same error to its caller. -/
theorem init_restart_swallows_failure (slot : CommonOptions)
    (cliOptions : Option CommonOptions) (w : InitWorld) (e : Err)
    (h : initFirstFailure w = some e) :
    ((init slot cliOptions true w).result = .ok none ∧
      InitEv.logError e ∈ (init slot cliOptions true w).events) ∧
    (init slot cliOptions false w).result = .error e := by
  cases hle : w.loadEnvResult with
  | error e1 =>
    simp [initFirstFailure, hle] at h
    subst h
    refine ⟨⟨?_, ?_⟩, ?_⟩ <;> simp [init, hle]
  | ok envFiles =>
    cases hlc : w.loadConfigResult with
    | error e1 =>
      simp [initFirstFailure, hle, hlc] at h
      subst h
      refine ⟨⟨?_, ?_⟩, ?_⟩ <;> simp [init, hle, hlc]
    | ok cfp =>
      cases hcr : w.createRsbuildResult with
      | error e1 =>
        simp [initFirstFailure, hle, hlc, hcr] at h
        subst h
        refine ⟨⟨?_, ?_⟩, ?_⟩ <;> simp [init, hle, hlc, hcr]
      | ok r => simp [initFirstFailure, hle, hlc, hcr] at h

/-- C9 witness: a failing env-loading step is logged and swallowed on a
restart run and re-thrown on a first run. -/
theorem init_restart_swallows_failure_witness :
    (init {} none true
        ⟨.error "env boom", .ok none, .ok 7, some "dev"⟩).result
      = .ok none ∧
    (init {} none false
        ⟨.error "env boom", .ok none, .ok 7, some "dev"⟩).result
      = .error "env boom" := by
  have h := init_restart_swallows_failure {} none
    ⟨.error "env boom", .ok none, .ok 7, some "dev"⟩ "env boom" rfl
  exact ⟨h.1.1, h.2⟩

/- ---------------------------------------------------------------------
Claim C7 — the `NODE_ENV` effect.
--------------------------------------------------------------------- -/

/-- C7: `startDevServer` sets `NODE_ENV` to `development` exactly when it
is unset or empty at entry; an already-set `NODE_ENV` and every other
environment variable are left unchanged. -/
theorem startDevServer_node_env (env : EnvMap) (cfg : RsbuildCfg)
    (opts : SDSOptions) (b : Behavior) :
    (env "NODE_ENV" = none →
      (startDevServer env cfg opts b).env "NODE_ENV"
        = some "development") ∧
    (env "NODE_ENV" = some "" →
      (startDevServer env cfg opts b).env "NODE_ENV"
        = some "development") ∧
    (∀ v, v ≠ "" → env "NODE_ENV" = some v →
      (startDevServer env cfg opts b).env = env) ∧
    (∀ k, k ≠ "NODE_ENV" →
      (startDevServer env cfg opts b).env k = env k) := by
  have henv : (startDevServer env cfg opts b).env = envAfterStart env := by
    cases hp : b.portResult <;> simp [startDevServer, hp]
  rw [henv]
  refine ⟨?_, ?_, ?_, ?_⟩
  · intro h; simp [envAfterStart, h, jsTruthyStr]
  · intro h; simp [envAfterStart, h, jsTruthyStr]
  · intro v hv h; simp [envAfterStart, h, jsTruthyStr, hv]
  · intro k hk
    by_cases ht : jsTruthyStr (env "NODE_ENV") <;>
      simp [envAfterStart, ht, hk]

/-- C7 witness: on an empty environment the run sets `NODE_ENV`, and on an
environment with only `PATH` set the run leaves `PATH` unchanged. -/
theorem startDevServer_node_env_witness :
    (startDevServer envA cfgA optsA behaviorSuccess).env "NODE_ENV"
      = some "development" ∧
    (startDevServer envB cfgA optsA behaviorSuccess).env "PATH"
      = some "/bin" := by
  have h1 := startDevServer_node_env envA cfgA optsA behaviorSuccess
  have h2 := startDevServer_node_env envB cfgA optsA behaviorSuccess
  exact ⟨h1.1 rfl, (h2.2.2.2 "PATH" (by decide)).trans rfl⟩

/- ---------------------------------------------------------------------
Claim C10 — the requested port.
--------------------------------------------------------------------- -/

theorem countP_runCbs_eq_zero (p : Ev → Bool) (mk : Nat → Ev)
    (h : ∀ i, p (mk i) = false) :
    ∀ (l : List (Option Err)) (i : Nat),
      ((runCbs mk l i).1).countP p = 0
  | [], _ => rfl
  | cb :: rest, i => by
    cases cb with
    | some e => simp [runCbs, List.countP_cons, h]
    | none =>
      simp [runCbs, List.countP_cons, h,
        countP_runCbs_eq_zero p mk h rest (i + 1)]

/-- No event after the port request is another port request. -/
theorem countP_getPortReq_portBoundPhase (cfg : RsbuildCfg)
    (opts : SDSOptions) (b : Behavior) (port : Nat) :
    ((portBoundPhase cfg opts b port).1).countP isGetPortReq = 0 := by
  simp only [portBoundPhase]
  cases hu : runUrls cfg opts b port with
  | error e => simp
  | ok ud =>
    obtain ⟨urls, doPrint⟩ := ud
    cases hc : b.createResult with
    | error e =>
      cases doPrint <;>
        simp [List.countP_cons, List.countP_append, isGetPortReq]
    | ok sid =>
      cases hbr : (runCbs Ev.beforeCb b.beforeCbs 0).2 with
      | error e =>
        cases doPrint <;>
          simp [List.countP_cons, List.countP_append, isGetPortReq,
            countP_runCbs_eq_zero isGetPortReq Ev.beforeCb (fun _ => rfl)]
      | ok u =>
        cases hi : b.initResult with
        | error e =>
          cases doPrint <;>
            simp [List.countP_cons, List.countP_append, isGetPortReq,
              countP_runCbs_eq_zero isGetPortReq Ev.beforeCb (fun _ => rfl)]
        | ok u2 =>
          cases hl : b.listenErr with
          | some e =>
            cases doPrint <;>
              simp [listenCallback, hl, List.countP_cons,
                List.countP_append, isGetPortReq,
                countP_runCbs_eq_zero isGetPortReq Ev.beforeCb
                  (fun _ => rfl)]
          | none =>
            cases har : (runCbs Ev.afterCb b.afterCbs 0).2 with
            | error e =>
              cases doPrint <;>
                simp [listenCallback, hl, har, List.countP_cons,
                  List.countP_append, isGetPortReq,
                  countP_runCbs_eq_zero isGetPortReq Ev.beforeCb
                    (fun _ => rfl),
                  countP_runCbs_eq_zero isGetPortReq Ev.afterCb
                    (fun _ => rfl)]
            | ok u3 =>
              cases doPrint <;>
                simp [listenCallback, hl, har, List.countP_cons,
                  List.countP_append, isGetPortReq,
                  countP_runCbs_eq_zero isGetPortReq Ev.beforeCb
                    (fun _ => rfl),
                  countP_runCbs_eq_zero isGetPortReq Ev.afterCb
                    (fun _ => rfl)]

/-- C10: every run issues exactly one port request, asking for `dev.port`
exactly when that is set and nonzero and for `DEFAULT_PORT` otherwise; in
particular a configured port of `0` is indistinguishable from an unset one
and is replaced by `DEFAULT_PORT` rather than passed through. -/
theorem startDevServer_requested_port (env : EnvMap) (cfg : RsbuildCfg)
    (opts : SDSOptions) (b : Behavior) :
    (startDevServer env cfg opts b).trace.countP isGetPortReq = 1 ∧
    Ev.getPortReq (requestedPort cfg)
        ∈ (startDevServer env cfg opts b).trace ∧
    (∀ p, cfg.dev.bind DevCfg.port = some p → p ≠ 0 →
      requestedPort cfg = p) ∧
    (cfg.dev.bind DevCfg.port = some 0 →
      requestedPort cfg = DEFAULT_PORT) ∧
    (cfg.dev.bind DevCfg.port = none →
      requestedPort cfg = DEFAULT_PORT) := by
  refine ⟨?_, ?_, ?_, ?_, ?_⟩
  · cases hp : b.portResult with
    | error e => simp [startDevServer, hp, List.countP_cons, isGetPortReq]
    | ok port =>
      simp [startDevServer, hp, List.countP_cons, isGetPortReq,
        countP_getPortReq_portBoundPhase]
  · cases hp : b.portResult with
    | error e => simp [startDevServer, hp]
    | ok port => simp [startDevServer, hp]
  · intro p h hne; simp [requestedPort, h, hne]
  · intro h; simp [requestedPort, h]
  · intro h; simp [requestedPort, h]

/-- C10 witness: with `dev.port = 0` the single port request asks for
`DEFAULT_PORT`. -/
theorem startDevServer_requested_port_witness :
    (startDevServer envA cfgPortZero optsA behaviorSuccess).trace.countP
        isGetPortReq = 1 ∧
    requestedPort cfgPortZero = DEFAULT_PORT ∧
    Ev.getPortReq DEFAULT_PORT
        ∈ (startDevServer envA cfgPortZero optsA behaviorSuccess).trace := by
  have h := startDevServer_requested_port envA cfgPortZero optsA
    behaviorSuccess
  have hz : requestedPort cfgPortZero = DEFAULT_PORT := h.2.2.2.1 rfl
  exact ⟨h.1, hz, hz ▸ h.2.1⟩

/- ---------------------------------------------------------------------
Claim C1 — the successful run.
--------------------------------------------------------------------- -/

/-- C1: in a run whose listen callback reports success (and whose other
collaborators succeed) the after-start hook is invoked exactly once, with
payload `{port}` for the resolved port; every callback of that invocation
completes before `resolve` is called; and the promise resolves with
`{port, urls, server}` where `urls` is the URL list computed (and possibly
transformed) earlier in the run. -/
theorem startDevServer_after_hook_once_then_resolve (env : EnvMap)
    (cfg : RsbuildCfg) (opts : SDSOptions) (b : Behavior) (port sid : Nat)
    (urls : List UrlEntry) (doPrint : Bool) (m n : Nat)
    (hp : b.portResult = .ok port)
    (hu : runUrls cfg opts b port = .ok (urls, doPrint))
    (hc : b.createResult = .ok sid)
    (hb : b.beforeCbs = List.replicate m none)
    (hi : b.initResult = .ok ())
    (hl : b.listenErr = none)
    (ha : b.afterCbs = List.replicate n none) :
    (startDevServer env cfg opts b).trace.countP isAfterCall = 1 ∧
    Ev.afterHookCall port ∈ (startDevServer env cfg opts b).trace ∧
    (∃ pre, (startDevServer env cfg opts b).trace =
      pre ++ Ev.afterHookCall port ::
        ((List.range' 0 n).map Ev.afterCb ++ [Ev.resolveEv])) ∧
    (startDevServer env cfg opts b).outcome =
      .resolved ⟨port, urls.map UrlEntry.url, sid⟩ := by
  obtain ⟨ht, ho⟩ := startDevServer_success_run env cfg opts b port sid urls
    doPrint m n hp hu hc hb hi hl ha
  refine ⟨?_, ?_, ?_, ho⟩
  · rw [ht]
    cases doPrint <;>
      simp [List.countP_append, List.countP_cons, isAfterCall,
        countP_map_eq_zero isAfterCall Ev.beforeCb (fun _ => rfl),
        countP_map_eq_zero isAfterCall Ev.afterCb (fun _ => rfl)]
  · rw [ht]; simp
  · refine ⟨Ev.getPortReq (requestedPort cfg) ::
      ((if doPrint then [Ev.printUrls urls] else []) ++
        Ev.createServer :: Ev.beforeHookCall ::
          ((List.range' 0 m).map Ev.beforeCb ++
            [Ev.serverInit,
             Ev.listenCall (resolveHost opts.serverOptionsDev) port])), ?_⟩
    rw [ht]; simp

/-- C1 witness: a concrete fully successful run fires the after-start hook
once and resolves with the computed URL list and server handle. -/
theorem startDevServer_after_hook_once_then_resolve_witness :
    (startDevServer envA cfgA optsA behaviorSuccess).trace.countP
        isAfterCall = 1 ∧
    Ev.afterHookCall 3000
        ∈ (startDevServer envA cfgA optsA behaviorSuccess).trace ∧
    (startDevServer envA cfgA optsA behaviorSuccess).outcome =
      .resolved ⟨3000, ["http://localhost:3000"], 1⟩ := by
  have h := startDevServer_after_hook_once_then_resolve envA cfgA optsA
    behaviorSuccess 3000 1 [⟨"Local", "http://localhost:3000"⟩] true 1 2
    rfl rfl rfl rfl rfl rfl rfl
  exact ⟨h.1, h.2.1, h.2.2.2⟩

/- ---------------------------------------------------------------------
Claim C2 — the before-start hook and server creation.
--------------------------------------------------------------------- -/

/-- C2 counterexample: in a concrete run reaching the before-start hook,
`createDevServer` has been invoked strictly earlier in the trace, so the
claim that the hook completes before the server factory is called fails
on the code (lines 165-167 of `devServer.ts` await the factory first). -/
theorem before_hook_not_before_create :
    Ev.createServer
        ∈ (startDevServer envA cfgA optsA behaviorSuccess).trace ∧
    Ev.beforeHookCall
        ∈ (startDevServer envA cfgA optsA behaviorSuccess).trace ∧
    (startDevServer envA cfgA optsA behaviorSuccess).trace.indexOf
        Ev.createServer <
      (startDevServer envA cfgA optsA behaviorSuccess).trace.indexOf
        Ev.beforeHookCall := by decide

/-- C2 (amended): in every run of `startDevServer` that reaches the
before-start hook, the injected `createDevServer` factory has already been
invoked and awaited; the hook call, with all of its callbacks, completes
after server creation and before `server.init()` is called. -/
theorem before_hook_between_create_and_init (env : EnvMap)
    (cfg : RsbuildCfg) (opts : SDSOptions) (b : Behavior) (port sid : Nat)
    (urls : List UrlEntry) (doPrint : Bool) (m : Nat)
    (hp : b.portResult = .ok port)
    (hu : runUrls cfg opts b port = .ok (urls, doPrint))
    (hc : b.createResult = .ok sid)
    (hb : b.beforeCbs = List.replicate m none) :
    ∃ pre post, (startDevServer env cfg opts b).trace =
      pre ++ Ev.createServer :: Ev.beforeHookCall ::
        ((List.range' 0 m).map Ev.beforeCb ++ Ev.serverInit :: post) := by
  simp only [startDevServer, portBoundPhase, hp, hu, hc, hb,
    runCbs_replicate]
  cases hi : b.initResult with
  | error e =>
    refine ⟨Ev.getPortReq (requestedPort cfg) ::
      (if doPrint then [Ev.printUrls urls] else []), [], ?_⟩
    simp
  | ok u =>
    refine ⟨Ev.getPortReq (requestedPort cfg) ::
      (if doPrint then [Ev.printUrls urls] else []),
      Ev.listenCall (resolveHost opts.serverOptionsDev) port ::
        (listenCallback b port sid urls).1, ?_⟩
    simp

/-- C2 (amended) witness: the concrete successful run has the shape
server-creation, then hook call and callback, then `init`. -/
theorem before_hook_between_create_and_init_witness :
    ∃ pre post, (startDevServer envA cfgA optsA behaviorSuccess).trace =
      pre ++ Ev.createServer :: Ev.beforeHookCall ::
        ((List.range' 0 1).map Ev.beforeCb ++ Ev.serverInit :: post) :=
  before_hook_between_create_and_init envA cfgA optsA behaviorSuccess
    3000 1 [⟨"Local", "http://localhost:3000"⟩] true 1 rfl rfl rfl rfl

/- ---------------------------------------------------------------------
Claim C6 — the `printURLs` transform.
--------------------------------------------------------------------- -/

/-- C6: when the `printURLs` option is a function, a non-array return
value rejects the run before any server is created, and an array return
value replaces the computed URL list both for printing and in the final
resolved result. -/
theorem printURLs_transform_behaviour (env : EnvMap) (cfg : RsbuildCfg)
    (opts : SDSOptions) (b : Behavior) (port : Nat)
    (f : List UrlEntry → UrlRet)
    (hp : b.portResult = .ok port)
    (hf : opts.printURLs = .transform f) :
    (f (getAddressUrls (protocolOf opts) port (cfg.dev.bind DevCfg.host)
        b.ifaces) = .nonArr →
      (startDevServer env cfg opts b).outcome =
        .rejected "Please return an array in the `printURLs` function." ∧
      Ev.createServer ∉ (startDevServer env cfg opts b).trace) ∧
    (∀ vs sid m n,
      f (getAddressUrls (protocolOf opts) port (cfg.dev.bind DevCfg.host)
          b.ifaces) = .arrOf vs →
      b.createResult = .ok sid →
      b.beforeCbs = List.replicate m none →
      b.initResult = .ok () →
      b.listenErr = none →
      b.afterCbs = List.replicate n none →
      Ev.printUrls vs ∈ (startDevServer env cfg opts b).trace ∧
      (startDevServer env cfg opts b).outcome =
        .resolved ⟨port, vs.map UrlEntry.url, sid⟩) := by
  constructor
  · intro hna
    have hu : runUrls cfg opts b port =
        .error "Please return an array in the `printURLs` function." := by
      rw [runUrls, hf]; simp [applyPrintURLs, hna]
    constructor
    · simp [startDevServer, portBoundPhase, hp, hu]
    · simp [startDevServer, portBoundPhase, hp, hu]
  · intro vs sid m n harr hc hb hi hl ha
    have hu : runUrls cfg opts b port = .ok (vs, true) := by
      rw [runUrls, hf]; simp [applyPrintURLs, harr]
    obtain ⟨ht, ho⟩ := startDevServer_success_run env cfg opts b port sid vs
      true m n hp hu hc hb hi hl ha
    refine ⟨?_, ho⟩
    rw [ht]; simp

/-- C6 witness: a transform returning a fixed one-entry array replaces the
URL list in the printed output and the result, and a transform returning a
non-array rejects the run before server creation. -/
theorem printURLs_transform_behaviour_witness :
    ((startDevServer envA cfgA
        { printURLs := .transform fun _ => .nonArr }
        behaviorSuccess).outcome =
      .rejected "Please return an array in the `printURLs` function." ∧
     Ev.createServer ∉ (startDevServer envA cfgA
        { printURLs := .transform fun _ => .nonArr }
        behaviorSuccess).trace) ∧
    Ev.printUrls [⟨"Custom", "http://example.test:3000"⟩]
        ∈ (startDevServer envA cfgA
            { printURLs :=
                .transform fun _ => .arrOf
                  [⟨"Custom", "http://example.test:3000"⟩] }
            behaviorSuccess).trace ∧
    (startDevServer envA cfgA
        { printURLs :=
            .transform fun _ => .arrOf
              [⟨"Custom", "http://example.test:3000"⟩] }
        behaviorSuccess).outcome =
      .resolved ⟨3000, ["http://example.test:3000"], 1⟩ := by
  have h1 := (printURLs_transform_behaviour envA cfgA
    { printURLs := .transform fun _ => .nonArr } behaviorSuccess 3000
    (fun _ => .nonArr) rfl rfl).1 rfl
  have h2 := (printURLs_transform_behaviour envA cfgA
    { printURLs := .transform fun _ => .arrOf
        [⟨"Custom", "http://example.test:3000"⟩] } behaviorSuccess 3000
    (fun _ => .arrOf [⟨"Custom", "http://example.test:3000"⟩]) rfl rfl).2
    [⟨"Custom", "http://example.test:3000"⟩] 1 1 2 rfl rfl rfl rfl rfl rfl
  exact ⟨h1, h2.1, h2.2⟩

/- ---------------------------------------------------------------------
Claim C3 — the listen-error path.
--------------------------------------------------------------------- -/

/-- C3: evaluation at the failing input.  When the server reports a bind
error to the listen callback, the after-start hook is indeed never
invoked, but the promise returned by `startDevServer` does not reject with
the error: the `throw err` sits inside the `async` listen callback while
the promise of lines 172-193 is constructed with a `resolve` function
only, so the error escapes as an unhandled rejection and the promise stays
pending forever. -/
theorem listen_error_leaves_promise_pending :
    (startDevServer envA cfgA optsA behaviorListenErr).outcome
        = .hung "EADDRINUSE" ∧
    (startDevServer envA cfgA optsA behaviorListenErr).outcome
        ≠ .rejected "EADDRINUSE" ∧
    (startDevServer envA cfgA optsA behaviorListenErr).trace.countP
        isAfterCall = 0 := by decide

/- ---------------------------------------------------------------------
Claim C5 — hook callback rejection.
--------------------------------------------------------------------- -/

/-- C5 counterexample: when the first after-start hook callback rejects,
the remaining callback is indeed not run, but the promise returned by
`startDevServer` does not reject with the error as claimed: it stays
pending forever while the error escapes as an unhandled rejection. -/
theorem after_hook_rejection_leaves_promise_pending :
    (startDevServer envA cfgA optsA behaviorAfterFail).outcome
        = .hung "hook boom" ∧
    (startDevServer envA cfgA optsA behaviorAfterFail).outcome
        ≠ .rejected "hook boom" ∧
    (startDevServer envA cfgA optsA behaviorAfterFail).trace.countP
        isAfterCb = 1 ∧
    Ev.resolveEv ∉ (startDevServer envA cfgA optsA behaviorAfterFail).trace
    := by decide

/-- C5 (amended): a rejecting hook callback aborts the remaining callbacks
of that hook invocation; a rejecting before-start callback makes the run's
promise reject with that error, while a rejecting after-start callback
leaves the promise pending forever (the error escaping as an unhandled
rejection), so the run never resolves without its post-start hooks having
completed. -/
theorem hook_rejection_aborts_run (env : EnvMap) (cfg : RsbuildCfg)
    (opts : SDSOptions) (b b2 : Behavior) (port port2 sid sid2 : Nat)
    (urls urls2 : List UrlEntry) (doPrint doPrint2 : Bool) (i j m : Nat)
    (e e2 : Err) (rest rest2 : List (Option Err)) :
    (b.portResult = .ok port →
     runUrls cfg opts b port = .ok (urls, doPrint) →
     b.createResult = .ok sid →
     b.beforeCbs = List.replicate i none ++ some e :: rest →
      (startDevServer env cfg opts b).outcome = .rejected e ∧
      (startDevServer env cfg opts b).trace.countP isBeforeCb = i + 1 ∧
      Ev.beforeCb (i + 1) ∉ (startDevServer env cfg opts b).trace) ∧
    (b2.portResult = .ok port2 →
     runUrls cfg opts b2 port2 = .ok (urls2, doPrint2) →
     b2.createResult = .ok sid2 →
     b2.beforeCbs = List.replicate m none →
     b2.initResult = .ok () →
     b2.listenErr = none →
     b2.afterCbs = List.replicate j none ++ some e2 :: rest2 →
      (startDevServer env cfg opts b2).outcome = .hung e2 ∧
      (startDevServer env cfg opts b2).trace.countP isAfterCb = j + 1 ∧
      Ev.afterCb (j + 1) ∉ (startDevServer env cfg opts b2).trace ∧
      Ev.resolveEv ∉ (startDevServer env cfg opts b2).trace) := by
  constructor
  · intro hp hu hc hb
    simp only [startDevServer, portBoundPhase, hp, hu, hc, hb, runCbs_fail]
    refine ⟨trivial, ?_, ?_⟩
    · cases doPrint <;>
        simp [List.countP_append, List.countP_cons, isBeforeCb,
          countP_map_eq_length isBeforeCb Ev.beforeCb (fun _ => rfl)]
    · cases doPrint <;>
        simp [List.mem_append, List.mem_map, List.mem_range'_1]
  · intro hp hu hc hb hi hl ha
    simp only [startDevServer, portBoundPhase, listenCallback, hp, hu, hc,
      hb, hi, hl, ha, runCbs_replicate, runCbs_fail]
    refine ⟨trivial, ?_, ?_, ?_⟩
    · cases doPrint2 <;>
        simp [List.countP_append, List.countP_cons, isAfterCb,
          countP_map_eq_zero isAfterCb Ev.beforeCb (fun _ => rfl),
          countP_map_eq_length isAfterCb Ev.afterCb (fun _ => rfl)]
    · cases doPrint2 <;>
        simp [List.mem_append, List.mem_map, List.mem_range'_1]
    · cases doPrint2 <;>
        simp [List.mem_append, List.mem_map, List.mem_range'_1]

/-- C5 (amended) witness: a rejecting second before-start callback rejects
the concrete run, and a rejecting first after-start callback leaves the
concrete run pending. -/
theorem hook_rejection_aborts_run_witness :
    ((startDevServer envA cfgA optsA behaviorBeforeFail).outcome
        = .rejected "before boom" ∧
      (startDevServer envA cfgA optsA behaviorBeforeFail).trace.countP
        isBeforeCb = 2) ∧
    ((startDevServer envA cfgA optsA behaviorAfterFail).outcome
        = .hung "hook boom" ∧
      Ev.resolveEv
        ∉ (startDevServer envA cfgA optsA behaviorAfterFail).trace) := by
  have h := hook_rejection_aborts_run envA cfgA optsA behaviorBeforeFail
    behaviorAfterFail 3000 3000 1 1
    [⟨"Local", "http://localhost:3000"⟩]
    [⟨"Local", "http://localhost:3000"⟩] true true 1 0 0
    "before boom" "hook boom" [] [none]
  have h1 := h.1 rfl rfl rfl rfl
  have h2 := h.2 rfl rfl rfl rfl rfl rfl rfl
  exact ⟨⟨h1.1, h1.2.1⟩, ⟨h2.1, h2.2.2.2⟩⟩
